import Mathlib

/-!
Verification of the beat-driven effect scheduler of the `mediocre`
repository's ASCII visualizer scripts.

The definitions below are a shallow embedding of
`scripts/visualizers/ascii-beats.py` (the unified visualizer) together
with the variant scripts `ascii-beats-working.py`,
`ascii-beats-insane.py` and `ascii-beats-simple.py`.  Wall-clock times
(Python floats, always dyadic constants such as 0.5 here) are modelled
as rationals; Python integers as `Int` / `Nat`; randomness as an
explicit stream of draws; screen geometry, colour cells and the
particle shapes themselves are delegated to external libraries and are
carried only as opaque data.
-/

/-- The `VisualizerMode` enumeration (`ascii-beats.py`, lines 23-26). -/
inductive VisualizerMode where
  | simple
  | standard
  | insane
  deriving DecidableEq, Repr

/-- Per-mode beat period in seconds (`ascii-beats.py`, lines 139-156): 0.5 s
(120 BPM) for every mode. -/
def beat_interval (_ : VisualizerMode) : ℚ := 1 / 2

/-- Per-mode sub-beat period in seconds (`ascii-beats.py`, lines 141, 147, 153). -/
def sub_beat_interval : VisualizerMode → ℚ
  | .simple => 1 / 4
  | .standard => 1 / 8
  | .insane => 1 / 8

/-- Per-mode target frame rate (`ascii-beats.py`, lines 142, 148, 154). -/
def target_fps : VisualizerMode → ℕ
  | .simple => 30
  | .standard => 40
  | .insane => 40

/-- Per-mode cap on concurrently tracked transient effects
(`ascii-beats.py`, lines 144, 150, 156). -/
def max_explosions : VisualizerMode → ℕ
  | .simple => 20
  | .standard => 40
  | .insane => 100

/-- A firework effect object as produced by `create_fireworks`
(`ascii-beats.py`, lines 79-119).  `kind` is the index of the firework
class used; `ctorLifetime` is the randomized lifetime argument passed to
the firework constructor.  Screen coordinates are owned by the rendering
library and omitted. -/
structure Firework where
  kind : ℕ
  ctorLifetime : ℕ
  deriving DecidableEq, Repr

/-- Python's `random.randint(lo, hi)` (inclusive bounds), driven by one draw `r`. -/
def randint (lo hi r : ℕ) : ℕ := lo + r % (hi + 1 - lo)

/-- The function `create_fireworks(screen, x, y, intensity, mode)` (`ascii-beats.py`,
lines 79-119), with the random module modelled as a stream of draws.
`intensity` is a rational in `[0, 1]` (it is `0.5` or `0.7 + r*0.3` at
every call site), so Python's truncating `int()` agrees with `floor`.
In insane mode each spawn point appends two fireworks of distinct kinds
(`random.sample(firework_types, 2)`). -/
def create_fireworks (mode : VisualizerMode) (intensity : ℚ) (draws : ℕ → ℕ) :
    List Firework :=
  match mode with
  | .simple =>
      let num := min (⌊intensity * 3⌋.toNat + 1) 3
      (List.range num).map (fun k => ⟨0, randint 10 15 (draws k)⟩)
  | .standard =>
      let num := min (⌊intensity * 6⌋.toNat + 2) 6
      (List.range num).map
        (fun k => ⟨draws (2 * k) % 3, randint 15 20 (draws (2 * k + 1))⟩)
  | .insane =>
      let num := min (⌊intensity * 12⌋.toNat + 3) 12
      (List.range num).flatMap (fun k =>
        let k1 := draws (3 * k) % 4
        let k2 := (k1 + 1 + draws (3 * k + 1) % 3) % 4
        [⟨k1, randint 20 30 (draws (3 * k + 2))⟩,
         ⟨k2, randint 20 30 (draws (3 * k + 2))⟩])

/-- A transient-effect entry, the dict appended at `ascii-beats.py`
lines 210-214: `{'effect': explosion, 'birth': frame, 'lifetime': ...}`. -/
structure Entry where
  effect : Firework
  birth : ℤ
  lifetime : ℤ
  deriving DecidableEq, Repr

/-- The per-mode tracker lifetime stamped on every appended entry
(`ascii-beats.py`, line 213): `30 if mode == VisualizerMode.SIMPLE else 50`. -/
def tracker_lifetime : VisualizerMode → ℤ
  | .simple => 30
  | .standard => 50
  | .insane => 50

/-- The guarded append loop of the beat handler (`ascii-beats.py`,
lines 208-214): each new explosion is appended only while
`len(active_explosions) < max_explosions`, stamped with the current
frame and the per-mode tracker lifetime. -/
def append_explosions (mode : VisualizerMode) (frame : ℤ)
    (active : List Entry) (news : List Firework) : List Entry :=
  news.foldl (fun acc fw =>
    if acc.length < max_explosions mode then
      acc ++ [⟨fw, frame, tracker_lifetime mode⟩]
    else acc) active

/-- The per-frame sweep (`ascii-beats.py`, lines 281-284): keep exactly
the entries with `frame - birth < lifetime`. -/
def sweep_explosions (frame : ℤ) (active : List Entry) : List Entry :=
  active.filter (fun e => frame - e.birth < e.lifetime)

/-- One observable action of the unified visualizer's main loop on the
`active_explosions` collection: a beat append burst or the per-frame sweep. -/
inductive LoopEvent where
  | beat (frame : ℤ) (news : List Firework)
  | sweep (frame : ℤ)

/-- Effect of one loop event on the `active_explosions` collection. -/
def loop_step (mode : VisualizerMode) (active : List Entry) :
    LoopEvent → List Entry
  | .beat frame news => append_explosions mode frame active news
  | .sweep frame => sweep_explosions frame active

/-- The `active_explosions` collection reached from the initial empty list
(`ascii-beats.py`, line 164) after a sequence of loop events. -/
def run_loop (mode : VisualizerMode) (events : List LoopEvent) : List Entry :=
  events.foldl (loop_step mode) []

lemma append_explosions_length_le (mode : VisualizerMode) (frame : ℤ)
    (news : List Firework) :
    ∀ active : List Entry, active.length ≤ max_explosions mode →
      (append_explosions mode frame active news).length ≤ max_explosions mode := by
  induction news with
  | nil => intro active h; simpa [append_explosions] using h
  | cons fw rest ih =>
      intro active h
      have hstep :
          (if active.length < max_explosions mode then
              active ++ [⟨fw, frame, tracker_lifetime mode⟩]
            else active).length ≤ max_explosions mode := by
        split_ifs with hlt
        · simpa using hlt
        · exact h
      simpa [append_explosions, List.foldl_cons] using
        ih _ hstep

lemma sweep_explosions_length_le (frame : ℤ) (active : List Entry) :
    (sweep_explosions frame active).length ≤ active.length :=
  List.length_filter_le _ _

lemma loop_step_length_le (mode : VisualizerMode) (active : List Entry)
    (ev : LoopEvent) (h : active.length ≤ max_explosions mode) :
    (loop_step mode active ev).length ≤ max_explosions mode := by
  cases ev with
  | beat frame news => exact append_explosions_length_le mode frame news active h
  | sweep frame =>
      exact le_trans (sweep_explosions_length_le frame active) h

lemma run_loop_aux (mode : VisualizerMode) :
    ∀ (events : List LoopEvent) (active : List Entry),
      active.length ≤ max_explosions mode →
      (events.foldl (loop_step mode) active).length ≤ max_explosions mode := by
  intro events
  induction events with
  | nil => intro active h; simpa using h
  | cons ev rest ih =>
      intro active h
      simpa [List.foldl_cons] using ih _ (loop_step_length_le mode active ev h)

/-- C1: for every mode and every reachable state of the unified
visualizer's main loop, the number of entries in `active_explosions`
never exceeds the mode's `max_explosions` (20 for simple, 40 for
standard, 100 for insane); every append is guarded by the cap check. -/
theorem explosion_cap_invariant :
    ∀ (mode : VisualizerMode) (events : List LoopEvent),
      (run_loop mode events).length ≤ max_explosions mode
      ∧ max_explosions VisualizerMode.simple = 20
      ∧ max_explosions VisualizerMode.standard = 40
      ∧ max_explosions VisualizerMode.insane = 100 := by
  intro mode events
  refine ⟨?_, rfl, rfl, rfl⟩
  exact run_loop_aux mode events [] (by simp)

/-- Repeated per-frame sweeps: `sweep_through l start n` is the
`active_explosions` list after running the sweep of lines 281-284 at
every frame `start, start + 1, ..., start + n` in order, starting from
the list `l` as it stands at frame `start` (entries born at frame `b`
are appended before the sweep of frame `b` runs). -/
def sweep_through (l : List Entry) (start : ℤ) : ℕ → List Entry
  | 0 => sweep_explosions start l
  | n + 1 => sweep_explosions (start + (n + 1 : ℕ)) (sweep_through l start n)

lemma mem_sweep_explosions {frame : ℤ} {l : List Entry} {e : Entry} :
    e ∈ sweep_explosions frame l ↔ e ∈ l ∧ frame - e.birth < e.lifetime := by
  simp [sweep_explosions]

lemma mem_sweep_through {l : List Entry} {start : ℤ} {e : Entry} :
    ∀ n : ℕ, e ∈ sweep_through l start n ↔
      e ∈ l ∧ (start + n) - e.birth < e.lifetime := by
  intro n
  induction n with
  | zero => simpa [sweep_through] using mem_sweep_explosions
  | succ n ih =>
      rw [sweep_through, mem_sweep_explosions, ih]
      constructor
      · rintro ⟨⟨hm, _⟩, hlast⟩
        refine ⟨hm, ?_⟩
        push_cast at hlast ⊢
        omega
      · rintro ⟨hm, hlast⟩
        push_cast at hlast
        refine ⟨⟨hm, ?_⟩, ?_⟩ <;> · push_cast; omega

/-- The scenario list of the claim: three entries born at frame 0 with
lifetimes 10, 20 and 30. -/
def lifetimes_scenario : List Entry :=
  [⟨⟨0, 0⟩, 0, 10⟩, ⟨⟨0, 0⟩, 0, 20⟩, ⟨⟨0, 0⟩, 0, 30⟩]

/-- C2: an entry with birth frame `b` and lifetime `L > 0` survives the
per-frame sweep (which keeps exactly the entries with
`frame - birth < lifetime`) at every frame `b .. b + L - 1` and is gone
from frame `b + L` onward with no resurrection: after sweeping every
frame from `b` through `b + n`, the entry is live iff `n < L`.  For
entries with lifetimes `[10, 20, 30]` all born at frame 0, after
sweeping through frame 25 exactly the lifetime-30 entry remains. -/
theorem effect_lifetime_window :
    (∀ (l : List Entry) (e : Entry) (n : ℕ), e ∈ l → 0 < e.lifetime →
        (e ∈ sweep_through l e.birth n ↔ (n : ℤ) < e.lifetime))
    ∧ sweep_through lifetimes_scenario 0 25 = [⟨⟨0, 0⟩, 0, 30⟩] := by
  constructor
  · intro l e n hmem _
    rw [mem_sweep_through]
    constructor
    · rintro ⟨_, h⟩; omega
    · intro h; exact ⟨hmem, by omega⟩
  · decide

/-- C2 witness: the lifetime-30 entry of the scenario is still live after
sweeping through frame 25. -/
theorem effect_lifetime_window_witness :
    (⟨⟨0, 0⟩, 0, 30⟩ : Entry) ∈ sweep_through lifetimes_scenario 0 25 :=
  (effect_lifetime_window.1 lifetimes_scenario ⟨⟨0, 0⟩, 0, 30⟩ 25
    (by decide) (by decide)).mpr (by decide)

/-- Beat-clock state of the unified visualizer's main loop
(`ascii-beats.py`, lines 163-165): the wall-clock time of the last fired
beat and the running beat count. -/
structure BeatClock where
  last_beat_time : ℚ
  beat_count : ℕ
  deriving DecidableEq, Repr

/-- One poll of the simulated beat clock (`ascii-beats.py`, lines 191-193):
a beat fires iff `current_time - last_beat_time >= beat_interval`; on
fire, `last_beat_time` is reset to `current_time` and `beat_count`
increments by exactly one. -/
def poll_beat (interval : ℚ) (now : ℚ) (s : BeatClock) : Bool × BeatClock :=
  if now - s.last_beat_time ≥ interval then (true, ⟨now, s.beat_count + 1⟩)
  else (false, s)

/-- Folding the beat-clock poll over a list of poll times. -/
def run_clock (interval : ℚ) (s : BeatClock) (polls : List ℚ) : BeatClock :=
  polls.foldl (fun st t => (poll_beat interval t st).2) s

/-- Poll times of 2.0 simulated seconds of simple mode at its 30 fps
target rate, starting from time 0 with no missed polls. -/
def simple_poll_times : List ℚ :=
  (List.range 61).map (fun k => (k : ℚ) / 30)

set_option maxRecDepth 4000

/-- C3: a beat fires iff `now - last_beat_time >= beat_interval`; on fire
the clock resets `last_beat_time` to `now` and increments `beat_count` by
exactly 1 (never more, however much time elapsed), otherwise the state is
unchanged, so `beat_count` is monotonically non-decreasing; and in simple
mode (`beat_interval = 1/2` s) polling every frame for 2.0 simulated
seconds yields `beat_count = 4`. -/
theorem beat_clock_poll_spec :
    (∀ (interval now : ℚ) (s : BeatClock),
        ((poll_beat interval now s).1 = true ↔ interval ≤ now - s.last_beat_time)
        ∧ ((poll_beat interval now s).1 = true →
            (poll_beat interval now s).2 = ⟨now, s.beat_count + 1⟩)
        ∧ ((poll_beat interval now s).1 = false → (poll_beat interval now s).2 = s)
        ∧ s.beat_count ≤ ((poll_beat interval now s).2).beat_count
        ∧ ((poll_beat interval now s).2).beat_count ≤ s.beat_count + 1)
    ∧ (run_clock (beat_interval VisualizerMode.simple) ⟨0, 0⟩
        simple_poll_times).beat_count = 4 := by
  constructor
  · intro interval now s
    unfold poll_beat
    split_ifs with h <;>
      simp_all
  · norm_num [run_clock, simple_poll_times, poll_beat, beat_interval,
      List.range_succ]

/-- C3 witness: polling at time 1 with the clock last fired at time 0 and
interval 1/2 fires a beat and moves the clock to `⟨1, 1⟩`. -/
theorem beat_clock_poll_spec_witness :
    (poll_beat (1 / 2) 1 ⟨0, 0⟩).2 = (⟨1, 1⟩ : BeatClock) :=
  (beat_clock_poll_spec.1 (1 / 2) 1 ⟨0, 0⟩).2.1 (by norm_num [poll_beat])

/-- The four colour schemes of the unified visualizer (`ascii-beats.py`,
lines 169-174), with the curses colour codes used by the rendering
library (RED 1, GREEN 2, YELLOW 3, BLUE 4, MAGENTA 5, CYAN 6, WHITE 7). -/
def color_schemes : List (List ℕ) :=
  [[1, 3, 7], [4, 6, 7], [2, 3, 7], [5, 3, 6]]

/-- The beat-count period of colour-scheme rotation in the unified
visualizer (`ascii-beats.py`, line 196):
`8 if mode != VisualizerMode.SIMPLE else 16`. -/
def color_rotation_period : VisualizerMode → ℕ
  | .simple => 16
  | .standard => 8
  | .insane => 8

/-- Colour-scheme index update performed on each fired beat
(`ascii-beats.py`, lines 196-197). -/
def update_scheme_idx (mode : VisualizerMode) (beat_count idx : ℕ) : ℕ :=
  if beat_count % color_rotation_period mode = 0 then
    (idx + 1) % color_schemes.length
  else idx

/-- Colour-scheme index update of `ascii-beats-working.py`
(lines 159-160), whose period is 4 beats; its `color_schemes` list
(lines 132-137) is the same four schemes. -/
def working_update_scheme_idx (beat_count idx : ℕ) : ℕ :=
  if beat_count % 4 = 0 then (idx + 1) % color_schemes.length else idx

/-- C4 counterexample: in the unified visualizer's simple mode the
colour-scheme rotation period is 16 beats, not 4 or 8; at beat counts 4
and 8 the index does not advance, and it first advances at beat 16. -/
theorem color_rotation_period_counterexample :
    color_rotation_period VisualizerMode.simple ≠ 4
    ∧ color_rotation_period VisualizerMode.simple ≠ 8
    ∧ update_scheme_idx VisualizerMode.simple 4 0 = 0
    ∧ update_scheme_idx VisualizerMode.simple 8 0 = 0
    ∧ update_scheme_idx VisualizerMode.simple 16 0 = 1 := by
  decide

/-- C4 amended: the colour-scheme index changes only on beat counts that
are multiples of the mode's rotation period, and on those it advances as
`(i + 1) mod N` over the `N = 4` defined schemes; the period is 8 beats
for standard and insane and 16 beats for simple in the unified
visualizer (and 4 beats in the working variant). -/
theorem color_rotation_amended :
    ∀ (mode : VisualizerMode) (c i : ℕ),
      (update_scheme_idx mode c i ≠ i → c % color_rotation_period mode = 0)
      ∧ (c % color_rotation_period mode = 0 →
          update_scheme_idx mode c i = (i + 1) % color_schemes.length)
      ∧ (working_update_scheme_idx c i ≠ i → c % 4 = 0)
      ∧ (c % 4 = 0 →
          working_update_scheme_idx c i = (i + 1) % color_schemes.length)
      ∧ color_rotation_period VisualizerMode.standard = 8
      ∧ color_rotation_period VisualizerMode.insane = 8
      ∧ color_rotation_period VisualizerMode.simple = 16
      ∧ color_schemes.length = 4 := by
  intro mode c i
  refine ⟨?_, ?_, ?_, ?_, rfl, rfl, rfl, rfl⟩
  · intro h
    by_contra hne
    simp [update_scheme_idx, hne] at h
  · intro h
    simp [update_scheme_idx, h]
  · intro h
    by_contra hne
    simp [working_update_scheme_idx, hne] at h
  · intro h
    simp [working_update_scheme_idx, h]

/-- C4 amended witness: in standard mode, beat 8 advances scheme index 0
to 1. -/
theorem color_rotation_amended_witness :
    update_scheme_idx VisualizerMode.standard 8 0 = (0 + 1) % color_schemes.length :=
  (color_rotation_amended VisualizerMode.standard 8 0).2.1 (by decide)

/-- Observable events of `main()` in `ascii-beats.py` (lines 329-371). -/
inductive MainEv where
  | argsOk
  | usageExit
  | printError
  | exitNonZero
  | printBanner
  | openScreen
  | runLoop
  deriving DecidableEq, Repr

/-- The mode strings accepted by the CLI (`ascii-beats.py`, line 336:
`choices=['simple', 'standard', 'insane']`). -/
def mode_choices : List String := ["simple", "standard", "insane"]

/-- Conversion of a mode string to the `VisualizerMode` enumeration
(`ascii-beats.py`, lines 23-26 and 343): exactly the three `choices`
strings map to a mode. -/
def parse_mode : String → Option VisualizerMode
  | "simple" => some .simple
  | "standard" => some .standard
  | "insane" => some .insane
  | _ => none

/-- Event trace of `main()` (`ascii-beats.py`, lines 329-363).  Argument
parsing runs first; a `--mode` value outside `choices` makes the
argument parser reject the invocation and exit before anything else
runs (library behaviour of the CLI parser, per the spec: "an
unrecognized mode must be rejected before the loop starts").  With the
arguments accepted, a nonexistent `audio_file` prints an error and calls
`sys.exit(1)` (lines 345-347) before the banner, before `Screen.wrapper`
opens the terminal session and before the render loop starts. -/
def main_trace (modeArg : String) (fileExists : Bool) : List MainEv :=
  match parse_mode modeArg with
  | none => [.usageExit]
  | some _ =>
      if fileExists then [.argsOk, .printBanner, .openScreen, .runLoop]
      else [.argsOk, .printError, .exitNonZero]

/-- C5: whenever the audio file does not exist, `main` prints an error
and exits non-zero, with no terminal session opened and no render loop
started. -/
theorem missing_file_exits_before_loop :
    ∀ (modeArg : String) (m : VisualizerMode), parse_mode modeArg = some m →
      main_trace modeArg false = [.argsOk, .printError, .exitNonZero]
      ∧ MainEv.printError ∈ main_trace modeArg false
      ∧ MainEv.exitNonZero ∈ main_trace modeArg false
      ∧ MainEv.openScreen ∉ main_trace modeArg false
      ∧ MainEv.runLoop ∉ main_trace modeArg false := by
  intro modeArg m h
  simp [main_trace, h]

/-- C5 witness: with the default mode string and a missing file, the
terminal session is never opened. -/
theorem missing_file_exits_before_loop_witness :
    MainEv.openScreen ∉ main_trace "standard" false :=
  (missing_file_exits_before_loop "standard" .standard rfl).2.2.2.1

/-- C6: a mode string is accepted iff it is one of `simple`, `standard`,
`insane` (each mapping to its enumeration value), and a rejected mode
string makes the invocation stop at argument validation: no terminal
session and no render loop. -/
theorem mode_validation_closed_set :
    (∀ s : String, (parse_mode s).isSome ↔ s ∈ mode_choices)
    ∧ parse_mode "simple" = some VisualizerMode.simple
    ∧ parse_mode "standard" = some VisualizerMode.standard
    ∧ parse_mode "insane" = some VisualizerMode.insane
    ∧ (∀ (s : String) (fe : Bool), parse_mode s = none →
        main_trace s fe = [MainEv.usageExit]
        ∧ MainEv.openScreen ∉ main_trace s fe
        ∧ MainEv.runLoop ∉ main_trace s fe) := by
  refine ⟨?_, rfl, rfl, rfl, ?_⟩
  · intro s
    unfold parse_mode
    split <;> simp_all [mode_choices]
  · intro s fe h
    simp [main_trace, h]

/-- C6 witness: the mode string `turbo` is rejected and no terminal
session is opened. -/
theorem mode_validation_closed_set_witness :
    MainEv.openScreen ∉ main_trace "turbo" true :=
  (mode_validation_closed_set.2.2.2.2 "turbo" true rfl).2.1

/-- Observable events of the render loop's error path. -/
inductive Ev where
  | loopIter
  | displayError
  | sleepDelay (seconds : ℚ)
  | audioStop
  | pygameQuit
  | rendererTeardown
  deriving DecidableEq, Repr

/-- Error path of the unified visualizer (`ascii-beats.py`): the render
loop (lines 183-322) sits in a `try` whose only handler is the `finally`
of lines 324-327; after `k` completed iterations an unexpected exception
escapes the loop, the `finally` stops audio and quits the audio library,
`Screen.wrapper` (line 363) restores the terminal, and `main`'s
`except Exception` handler (lines 367-370) prints the error once.  No
delay is taken anywhere on this path. -/
def unified_error_trace (k : ℕ) : List Ev :=
  List.replicate k .loopIter ++
    [.audioStop, .pygameQuit, .rendererTeardown, .displayError]

/-- Error path of `ascii-beats-insane.py`: the render loop (lines
208-330) is wrapped in a `try` whose `except Exception` handler (lines
332-335) displays the error in place and sleeps 2 seconds; the code
after the handler (lines 338-339) then stops audio and quits the audio
library, and `Screen.wrapper` restores the terminal. -/
def insane_error_trace (k : ℕ) : List Ev :=
  List.replicate k .loopIter ++
    [.displayError, .sleepDelay 2, .audioStop, .pygameQuit, .rendererTeardown]

/-- Whether an event is a fixed sleep delay. -/
def is_delay : Ev → Bool
  | .sleepDelay _ => true
  | _ => false

/-- C7 counterexample: in the unified visualizer an in-loop error exits
the loop with no fixed delay anywhere on the error path (the error is
still displayed exactly once and audio is stopped), so "the loop exits
after a short fixed delay" fails there. -/
theorem unified_error_path_has_no_delay :
    (unified_error_trace 3).countP is_delay = 0
    ∧ (unified_error_trace 3).count Ev.displayError = 1
    ∧ Ev.audioStop ∈ unified_error_trace 3 := by
  decide

/-- C7 amended: any unexpected in-loop error is caught at top level and
displayed exactly once, audio is stopped, the renderer is torn down, and
the loop is never re-entered (no retry): exactly the `k` iterations that
completed before the error.  The fixed short delay exists only in the
insane variant, whose handler shows the error in place and sleeps 2
seconds before teardown; the unified visualizer stops audio and tears
the renderer down at once and displays the error afterward, with no
delay. -/
theorem error_handling_amended :
    ∀ k : ℕ,
      (unified_error_trace k).count Ev.displayError = 1
      ∧ (insane_error_trace k).count Ev.displayError = 1
      ∧ Ev.audioStop ∈ unified_error_trace k
      ∧ Ev.rendererTeardown ∈ unified_error_trace k
      ∧ Ev.audioStop ∈ insane_error_trace k
      ∧ Ev.rendererTeardown ∈ insane_error_trace k
      ∧ (unified_error_trace k).countP is_delay = 0
      ∧ Ev.sleepDelay 2 ∈ insane_error_trace k
      ∧ (unified_error_trace k).count Ev.loopIter = k
      ∧ (insane_error_trace k).count Ev.loopIter = k := by
  intro k
  refine ⟨?_, ?_, ?_, ?_, ?_, ?_, ?_, ?_, ?_, ?_⟩ <;>
    simp [unified_error_trace, insane_error_trace, List.count_append,
      List.countP_append, List.count_replicate, List.countP_replicate,
      is_delay, List.count_cons, List.count_nil, List.countP_cons]

/-- The names bound at module level by the imports of
`ascii-beats-working.py` (lines 13-21): the particle import at lines
16-19 binds `SerpentFirework`, spelled with one `e`. -/
def working_module_names : List String :=
  ["Screen", "Scene", "Stars", "Print", "Cycle", "Matrix", "Snow",
   "RingFirework", "SerpentFirework", "StarFirework", "PalmFirework",
   "Rain", "DropScreen", "FigletText", "Rainbow", "Plasma", "Fire",
   "pygame", "sys", "os", "time", "random", "threading", "math"]

/-- The names appearing in the list literal at
`ascii-beats-working.py` line 172, exactly as written there:
`[RingFirework, SerpentFireework, StarFirework, PalmFirework]`. -/
def working_firework_type_names : List String :=
  ["RingFirework", "SerpentFireework", "StarFirework", "PalmFirework"]

/-- Python name lookup: a name evaluates to itself when bound, and
raises `NameError` otherwise. -/
def eval_name (ns : List String) (n : String) : Except String String :=
  if n ∈ ns then .ok n else .error ("NameError: name " ++ n ++ " is not defined")

/-- Left-to-right evaluation of the names of a list literal, stopping at
the first unbound name as Python does. -/
def eval_name_list (ns : List String) : List String → Except String (List String)
  | [] => .ok []
  | n :: rest => do
      let v ← eval_name ns n
      let vs ← eval_name_list ns rest
      pure (v :: vs)

/-- The firework-spawning part of the beat branch of
`ascii-beats-working.py` (lines 166-181): the list literal
`firework_types = [...]` at line 172 is evaluated before any sampling
or appending, so its result gates the appends (each of which would
stamp tracker lifetime 50, line 180).  `demo` contains no `try`, so an
error here propagates out of `demo`. -/
def working_beat_branch (active : List Entry) (frame : ℤ)
    (news : List Firework) : Except String (List Entry) :=
  (eval_name_list working_module_names working_firework_type_names).map
    (fun _ => active ++ news.map (fun fw => ⟨fw, frame, 50⟩))

/-- C8: every execution of the working variant's beat branch evaluates the
undefined name `SerpentFireework` (the import binds `SerpentFirework`),
so the branch raises `NameError` on the very first beat, uncaught inside
`demo`, and no firework entry is ever appended. -/
theorem serpent_firework_name_error :
    ∀ (active : List Entry) (frame : ℤ) (news : List Firework),
      working_beat_branch active frame news =
        .error "NameError: name SerpentFireework is not defined"
      ∧ "SerpentFirework" ∈ working_module_names
      ∧ "SerpentFireework" ∉ working_module_names := by
  intro active frame news
  exact ⟨rfl, by decide, by decide⟩

lemma mem_append_explosions (mode : VisualizerMode) (frame : ℤ)
    (news : List Firework) :
    ∀ (active : List Entry) (e : Entry),
      e ∈ append_explosions mode frame active news →
      e ∈ active ∨ e.lifetime = tracker_lifetime mode := by
  induction news with
  | nil => intro active e h; exact .inl (by simpa [append_explosions] using h)
  | cons fw rest ih =>
      intro active e h
      rw [append_explosions, List.foldl_cons] at h
      rcases ih _ e (by simpa [append_explosions] using h) with hmem | hl
      · by_cases hlt : active.length < max_explosions mode
        · rw [if_pos hlt] at hmem
          rcases List.mem_append.mp hmem with h1 | h2
          · exact .inl h1
          · right
            have : e = ⟨fw, frame, tracker_lifetime mode⟩ := by simpa using h2
            rw [this]
        · rw [if_neg hlt] at hmem
          exact .inl hmem
      · exact .inr hl

/-- C9: every transient-effect entry appended by the unified beat handler
stores the per-mode tracker lifetime (30 frames in simple mode, 50 in
standard and insane), for every randomness stream feeding
`create_fireworks` — hence independent of the randomized lifetime
argument passed to the firework constructors. -/
theorem tracker_lifetime_uniform :
    (∀ (mode : VisualizerMode) (frame : ℤ) (active : List Entry)
        (intensity : ℚ) (draws : ℕ → ℕ) (e : Entry),
        e ∈ append_explosions mode frame active
              (create_fireworks mode intensity draws) →
        e ∈ active ∨ e.lifetime = tracker_lifetime mode)
    ∧ tracker_lifetime VisualizerMode.simple = 30
    ∧ tracker_lifetime VisualizerMode.standard = 50
    ∧ tracker_lifetime VisualizerMode.insane = 50 := by
  refine ⟨?_, rfl, rfl, rfl⟩
  intro mode frame active intensity draws e h
  exact mem_append_explosions mode frame _ active e h

/-- C9 witness: in simple mode with intensity 1/2 and an all-zero
randomness stream, the first appended entry stores tracker lifetime 30. -/
theorem tracker_lifetime_uniform_witness :
    (⟨⟨0, 10⟩, 0, 30⟩ : Entry) ∈ ([] : List Entry)
    ∨ (⟨⟨0, 10⟩, 0, 30⟩ : Entry).lifetime = tracker_lifetime VisualizerMode.simple :=
  tracker_lifetime_uniform.1 VisualizerMode.simple 0 [] (1 / 2) (fun _ => 0)
    ⟨⟨0, 10⟩, 0, 30⟩
    (by norm_num [create_fireworks, append_explosions, randint,
      max_explosions, tracker_lifetime, List.range_succ])

/-- A beat event as put on the queue by the audio thread of
`ascii-beats-insane.py` (lines 97-102). -/
structure BeatEvent where
  time : ℚ
  idx : ℕ
  intensity : ℚ
  deriving DecidableEq, Repr

/-- The queue-drain loop at the top of each render iteration of
`ascii-beats-insane.py` (lines 214-218): every pending event is taken
with `get_nowait`, sets `beat_triggered` and increments `beat_count` by
one. -/
def drain_beat_queue (queue : List BeatEvent) (beat_count : ℕ)
    (beat_triggered : Bool) : ℕ × Bool :=
  queue.foldl (fun st _ => (st.1 + 1, true)) (beat_count, beat_triggered)

/-- C10: draining a queue holding `k` pending beat events within one
render iteration increments `beat_count` by exactly `k` (so by more than
1 whenever `k > 1`), and sets the triggered flag iff the queue was
nonempty; a queue of two pending events raises the count by 2 in a
single frame. -/
theorem insane_drain_counts_every_event :
    (∀ (queue : List BeatEvent) (c : ℕ),
        drain_beat_queue queue c false = (c + queue.length, !queue.isEmpty))
    ∧ (drain_beat_queue [⟨0, 0, 1⟩, ⟨1, 1, 1⟩] 0 false).1 = 2 := by
  have key : ∀ (queue : List BeatEvent) (c : ℕ) (b : Bool),
      drain_beat_queue queue c b =
        (c + queue.length, b || !queue.isEmpty) := by
    intro queue
    induction queue with
    | nil => intro c b; simp [drain_beat_queue]
    | cons ev rest ih =>
        intro c b
        have := ih (c + 1) true
        simp only [drain_beat_queue, List.foldl_cons] at this ⊢
        rw [this]
        simp [List.length_cons]
        omega
    
  constructor
  · intro queue c
    simpa using key queue c false
  · simpa using congrArg Prod.fst (key [⟨0, 0, 1⟩, ⟨1, 1, 1⟩] 0 false)
